import Mathlib

/-!
# Verification of the AWS service report generator

A shallow embedding of the data-normalization and report-rendering pipeline
of the `nodejs-aws-reporter` repository (Lambda handler, Excel generator,
archive manager), together with theorems settling the specification claims.

Conventions of the embedding:
* JavaScript strings are Lean `String`s; an absent string field and the empty
  string are identified, because every access in the source goes through the
  falsy-coalescing operator `a || b` (modelled by `orFalsy`).
* JavaScript numbers appearing here are natural-number counts; the one decimal
  computation `(count / total * 100).toFixed(1)` is modelled over exact
  arithmetic as rounding to tenths with ties upward, matching the `toFixed`
  specification (closest integer, larger on ties).
* JSON objects with string keys are association lists in insertion order
  (JavaScript object key order for non-index keys); `Map` counters are
  modelled by the counting function they compute.
* Fallible stages return `Except`; host facilities (S3, the Date parser)
  are parameters or small explicit models, noted where they occur.
-/

set_option maxRecDepth 16384

namespace AwsReporter

/-- JavaScript `a || b` restricted to strings: an absent field is `""`, and
both `undefined` and `""` are falsy, so the chain takes the first non-empty
candidate. -/
def orFalsy (a b : String) : String :=
  if a = "" then b else a

/-- A raw service record as consumed by the Excel generator.  The generator
probes the spellings `code`/`serviceCode`/`ServiceCode` and
`name`/`serviceName`/`ServiceName`; an absent field is `""`. -/
structure ServiceRec where
  code : String := ""
  serviceCode : String := ""
  ServiceCode : String := ""
  name : String := ""
  serviceName : String := ""
  ServiceName : String := ""
deriving Repr, DecidableEq

/-- A raw region record as consumed by the Excel generator.  The generator
probes `code`/`regionCode`/`RegionCode`, `name`/`regionName`/`RegionName`,
`launchDate`/`LaunchDate` and `blogUrl`/`BlogUrl`. -/
structure RegionRec where
  code : String := ""
  regionCode : String := ""
  RegionCode : String := ""
  name : String := ""
  regionName : String := ""
  RegionName : String := ""
  availabilityZones : Nat := 0
  launchDate : String := ""
  LaunchDate : String := ""
  blogUrl : String := ""
  BlogUrl : String := ""
deriving Repr, DecidableEq

/-- The normalized source data handed to `generateExcelReport`:
regions, services, and the flattened region-to-service-codes mapping
(an association list in object key order). -/
structure SourceData where
  regions : List RegionRec := []
  services : List ServiceRec := []
  servicesByRegion : List (String × List String) := []
deriving Repr, DecidableEq

/-- Lookup `servicesByRegion[regionCode] || []`: object lookup on the coverage
mapping, empty list when the key is absent. -/
def lookupRegion (m : List (String × List String)) (rc : String) : List String :=
  ((m.find? (fun e => e.1 == rc)).map Prod.snd).getD []

/-- The `serviceRegionCounts` map of `createServicesSheet`: for every region
entry and every occurrence of a service code in its list, the counter for
that code is incremented; reading an untouched key yields 0. -/
def countFor (m : List (String × List String)) (code : String) : Nat :=
  m.foldl (fun acc e => acc + e.2.count code) 0

/-- Probe `region.code || region.regionCode || region.RegionCode || ''`. -/
def probeRegionCode (r : RegionRec) : String :=
  orFalsy r.code (orFalsy r.regionCode r.RegionCode)

/-- Probe `service.code || service.serviceCode || service.ServiceCode || ''`. -/
def probeServiceCode (s : ServiceRec) : String :=
  orFalsy s.code (orFalsy s.serviceCode s.ServiceCode)

/-- The displayed service name on the Services sheet (and the Coverage
matrix): `service.name || service.serviceName || service.ServiceName || ''`. -/
def displayServiceName (s : ServiceRec) : String :=
  orFalsy s.name (orFalsy s.serviceName s.ServiceName)

/-- The computation `(count / total * 100).toFixed(1)` over exact arithmetic, as the number of
tenths of a percent: the integer closest to `1000 * count / total`, the larger
one on ties, i.e. the floor of `1000 * count / total + 1/2`. -/
def roundTenths (count total : Nat) : Nat :=
  (2000 * count + total) / (2 * total)

/-- Rendering of a tenths value as the decimal string `toFixed(1)` produces. -/
def fmtTenths (n : Nat) : String :=
  toString (n / 10) ++ "." ++ toString (n % 10)

/-- The Coverage % cell text: with no regions the JavaScript value is the
number `0` and the template renders `"0%"`; otherwise it is the `toFixed(1)`
string followed by `%`. -/
def coveragePercentCell (count total : Nat) : String :=
  if total = 0 then "0%" else fmtTenths (roundTenths count total) ++ "%"

/-- The font styles applied to the Coverage % cell:
`greenBold` = FF00B050 bold, `lightGreen` = FF92D050, `orange` = FFFFC000,
`red` = FFC00000, `grayItalic` = FF7F7F7F italic. -/
inductive CellStyle where
  | greenBold
  | lightGreen
  | orange
  | red
  | grayItalic
deriving Repr, DecidableEq

/-- Style selection of `createServicesSheet`: `parseFloat` of the displayed
percentage (0 when there are no regions) compared against 100 / 75 / 50 / 0.
On the one-decimal value this is exactly a comparison of tenths. -/
def percentStyle (count total : Nat) : CellStyle :=
  let tv := if total = 0 then 0 else roundTenths count total
  if tv = 1000 then .greenBold
  else if 750 ≤ tv then .lightGreen
  else if 500 ≤ tv then .orange
  else if 0 < tv then .red
  else .grayItalic

/-- One data row of the Services sheet. -/
structure ServicesRow where
  serviceCode : String
  serviceName : String
  availableRegions : Nat
  coveragePercent : String
  style : CellStyle
deriving Repr, DecidableEq

/-- The sort key of the Services sheet:
`(a.serviceName || a.ServiceName || a.name || '').toLowerCase()`. -/
def sortKeyServices (s : ServiceRec) : String :=
  (orFalsy s.serviceName (orFalsy s.ServiceName s.name)).toLower

/-- The sort key of the Service Coverage sheet:
`(a.name || a.serviceName || a.ServiceName || '').toLowerCase()`. -/
def sortKeyCoverage (s : ServiceRec) : String :=
  (orFalsy s.name (orFalsy s.serviceName s.ServiceName)).toLower

/-- One step of the stable sort: insert an element before the first element
with a key not smaller than its own, so that elements with equal keys keep
their original relative order.  `Array.prototype.sort` is required to be
stable, and with the `localeCompare` comparator on the key its result is this
unique stable sorted permutation. -/
def stableInsert (key : α → String) (a : α) : List α → List α
  | [] => [a]
  | b :: l => if key a ≤ key b then a :: b :: l else b :: stableInsert key a l

/-- The stable sort by a string key used by both sheets
(`[...services].sort((a, b) => keyA.localeCompare(keyB))`). -/
def sortByKey (key : α → String) : List α → List α
  | [] => []
  | a :: l => stableInsert key a (sortByKey key l)

/-- The Services sheet row built for one service record. -/
def serviceRowOf (d : SourceData) (s : ServiceRec) : ServicesRow :=
  let code := probeServiceCode s
  let cnt := countFor d.servicesByRegion code
  let total := d.regions.length
  { serviceCode := code
    serviceName := displayServiceName s
    availableRegions := cnt
    coveragePercent := coveragePercentCell cnt total
    style := percentStyle cnt total }

/-- The data rows of the Services sheet, in the order they are appended. -/
def createServicesSheet (d : SourceData) : List ServicesRow :=
  (sortByKey sortKeyServices d.services).map (serviceRowOf d)

/-- The Service Coverage sheet: either the centered placeholder (when the
coverage mapping is empty or absent) or the header row plus one row per
service with the availability markers. -/
inductive CoverageSheet where
  | placeholder
  | matrix (header : List String) (rows : List (String × List String))
deriving Repr, DecidableEq

/-- One Coverage matrix row: displayed service name, then one marker per
region column. -/
def coverageRowOf (d : SourceData) (regionCodes : List String) (s : ServiceRec) :
    String × List String :=
  (displayServiceName s,
    regionCodes.map fun rc =>
      if (lookupRegion d.servicesByRegion rc).contains (probeServiceCode s)
      then "✓" else "✗")

/-- The sheet built by `createServiceCoverageSheet`, reduced to the produced data. -/
def createServiceCoverageSheet (d : SourceData) : CoverageSheet :=
  if d.servicesByRegion.isEmpty then .placeholder
  else
    let regionCodes := d.regions.map probeRegionCode
    .matrix ("Service" :: regionCodes)
      ((sortByKey sortKeyCoverage d.services).map (coverageRowOf d regionCodes))

/-- The service-name column of the Coverage matrix (empty for the placeholder). -/
def CoverageSheet.serviceColumn : CoverageSheet → List String
  | .placeholder => []
  | .matrix _ rows => rows.map Prod.fst

/-- The number of regions whose coverage set contains a given service code:
the reference count that the specification states the percentage over. -/
def regionsContaining (d : SourceData) (code : String) : Nat :=
  (d.regions.filter fun r =>
    (lookupRegion d.servicesByRegion (probeRegionCode r)).contains code).length

/-! ## Regions sheet: launch-date rendering -/

/-- A calendar date, the observable content of a successfully parsed
JavaScript `Date` for the purposes of `toISOString().split('T')[0]`. -/
structure YMD where
  year : Nat
  month : Nat
  day : Nat
deriving Repr, DecidableEq

/-- Two-digit zero padding. -/
def pad2 (n : Nat) : String :=
  if n < 10 then "0" ++ toString n else toString n

/-- Four-digit zero padding for the year. -/
def pad4 (n : Nat) : String :=
  if n < 10 then "000" ++ toString n
  else if n < 100 then "00" ++ toString n
  else if n < 1000 then "0" ++ toString n
  else toString n

/-- The rendering `date.toISOString().split('T')[0]`: the `YYYY-MM-DD` form. -/
def isoDateString (d : YMD) : String :=
  pad4 d.year ++ "-" ++ pad2 d.month ++ "-" ++ pad2 d.day

/-- Split a character list at every dash. -/
def splitDashAux : List Char → List Char → List (List Char)
  | [], acc => [acc.reverse]
  | c :: rest, acc =>
    if c = '-' then acc.reverse :: splitDashAux rest []
    else splitDashAux rest (c :: acc)

/-- The numeric value of a non-empty all-digit character list. -/
def digitsVal (cs : List Char) : Option Nat :=
  if cs ≠ [] ∧ cs.all Char.isDigit
  then some (cs.foldl (fun a c => 10 * a + (c.toNat - 48)) 0)
  else none

/-- Model of the host `new Date(string)` constructor, restricted to the ISO
date-only form `YYYY-MM-DD`.  The constructor never throws: on any input it
cannot parse it produces an Invalid Date (time value NaN), modelled as
`none`.  The embedding keeps the parser abstract in `formatLaunchDate` and
uses this concrete restriction for closed evaluations. -/
def jsDateParse (s : String) : Option YMD :=
  match splitDashAux s.data [] with
  | [y, m, d] =>
    match digitsVal y, digitsVal m, digitsVal d with
    | some yn, some mn, some dn =>
      if y.length = 4 && m.length = 2 && d.length = 2 &&
          1 ≤ mn && mn ≤ 12 && 1 ≤ dn && dn ≤ 31
      then some ⟨yn, mn, dn⟩ else none
    | _, _, _ => none
  | _ => none

/-- The launch-date formatting of `createRegionsSheet`.  `formattedLaunchDate`
starts as `"N/A"`; for a non-empty input the `Date` constructor is applied
and, when the result is a valid date, it is rendered as `YYYY-MM-DD`.  When
the result is an Invalid Date the `isNaN` guard leaves `"N/A"` in place; the
`catch` branch that would fall back to the raw text is unreachable because
the `Date` constructor does not throw on unparseable strings. -/
def formatLaunchDate (dateParse : String → Option YMD) (launchDate : String) : String :=
  if launchDate = "" then "N/A"
  else
    match dateParse launchDate with
    | some d => isoDateString d
    | none => "N/A"

/-- One data row of the Regions sheet (the columns the claims concern, plus
the gray-italic styling flag of the launch-date cell). -/
structure RegionsRow where
  regionCode : String
  regionName : String
  serviceCount : Nat
  launchDate : String
  launchDateGrayItalic : Bool
  blogUrl : String
deriving Repr, DecidableEq

/-- The Regions sheet row built for one region record.  The launch-date cell
is styled gray italic exactly when its value is `"N/A"`. -/
def regionRowOf (dateParse : String → Option YMD) (d : SourceData) (r : RegionRec) :
    RegionsRow :=
  let regionCode := probeRegionCode r
  let cell := formatLaunchDate dateParse (orFalsy r.launchDate r.LaunchDate)
  { regionCode := regionCode
    regionName := orFalsy r.name (orFalsy r.regionName r.RegionName)
    serviceCount := (lookupRegion d.servicesByRegion regionCode).length
    launchDate := cell
    launchDateGrayItalic := cell == "N/A"
    blogUrl := orFalsy (orFalsy r.blogUrl r.BlogUrl) "N/A" }

/-- The data rows of the Regions sheet, in source order. -/
def createRegionsSheet (dateParse : String → Option YMD) (d : SourceData) :
    List RegionsRow :=
  d.regions.map (regionRowOf dateParse d)

/-! ## Retention sweep -/

/-- One object listed under the archive folder, with its last-modified time
as epoch milliseconds. -/
structure ArchiveObject where
  key : String
  lastModified : Int
deriving Repr, DecidableEq

/-- The result of the retention sweep. -/
structure RetentionResult where
  retained : Nat
  deleted : Nat
deriving Repr, DecidableEq

/-- Milliseconds per day. -/
def msPerDay : Int := 86400000

/-- The cutoff instant `now - retentionDays` days computed by
`manageArchiveRetention` (the Lambda clock runs in UTC, so the calendar-day
subtraction is a fixed-length-day subtraction). -/
def retentionCutoff (now : Int) (retentionDays : Nat) : Int :=
  now - retentionDays * msPerDay

/-- The sweep `manageArchiveRetention`, given the listed objects, the cutoff, and the
per-key outcome of the individual delete calls.  Objects modified strictly
before the cutoff are expired; each expired object is deleted individually
and a failed deletion is logged and skipped, so `deleted` counts only the
successful deletions while the sweep itself always completes. -/
def manageArchiveRetention (objects : List ArchiveObject) (cutoff : Int)
    (deleteSucceeds : String → Bool) : RetentionResult :=
  if objects.isEmpty then ⟨0, 0⟩
  else
    let expired := objects.filter fun o => o.lastModified < cutoff
    let retained := objects.filter fun o => ¬ o.lastModified < cutoff
    ⟨retained.length, (expired.filter fun o => deleteSucceeds o.key).length⟩

/-! ## Distribution mirror and end-of-run notification choice -/

/-- The record returned by `distributeReports`. -/
structure DistributionResult where
  distributed : Bool
  reason : Option String := none
  error : Option String := none
  errorType : Option String := none
deriving Repr, DecidableEq

/-- The mirror copy `distributeReports`: skipped when not configured; otherwise the outcome
of the copy call, where a failure is caught and returned as a non-fatal
record instead of being rethrown. -/
def distributeReports (configured : Bool) (copyOutcome : Except (String × String) Unit) :
    DistributionResult :=
  if ¬ configured then
    { distributed := false, reason := some "Distribution bucket not configured" }
  else
    match copyOutcome with
    | .ok _ => { distributed := true }
    | .error e => { distributed := false, error := some e.1, errorType := some e.2 }

/-- The three notification kinds the handler can dispatch on its own outcome. -/
inductive NotificationKind where
  | success
  | warning
  | failure
deriving Repr, DecidableEq

/-- The observable end state of a run that reached the post-upload stages. -/
structure RunSummary where
  statusCode : Nat
  distributionResult : DistributionResult
  archiveManagementWarning : Option String
  archivedReportsRetained : Option Nat
  archivedReportsDeleted : Nat
  kindSent : NotificationKind
deriving Repr, DecidableEq

/-- The tail of the handler success path (steps 5 to 10): the distribution
result is recorded on the report metadata; a retention failure is caught,
recorded as `archiveManagementWarning` and downgrades the notification to a
warning; otherwise a success notification is sent; the status code is 200
either way. -/
def handlerFinish (dist : DistributionResult)
    (retentionOutcome : Except String RetentionResult) : RunSummary :=
  match retentionOutcome with
  | .ok res =>
    { statusCode := 200
      distributionResult := dist
      archiveManagementWarning := none
      archivedReportsRetained := some res.retained
      archivedReportsDeleted := res.deleted
      kindSent := .success }
  | .error msg =>
    { statusCode := 200
      distributionResult := dist
      archiveManagementWarning := some msg
      archivedReportsRetained := none
      archivedReportsDeleted := 0
      kindSent := .warning }

/-! ## Handler validation and normalization -/

/-- The metadata container of the primary document (only its presence matters
to validation). -/
structure MetadataRaw where
  schemaVersion : String := ""
  version : String := ""
  timestamp : String := ""
deriving Repr, DecidableEq

/-- A top-level collection that may be a direct array or an object wrapping
the array under a same-named field (`sourceData.regions.regions ||
sourceData.regions`). -/
inductive Container (α : Type) where
  | direct (items : List α)
  | wrapped (items : List α)
deriving Repr, DecidableEq

/-- The probed array of a container. -/
def Container.items : Container α → List α
  | .direct l => l
  | .wrapped l => l

/-- One raw value of the coverage mapping: a plain array of service codes, an
object wrapping such an array under `services`, or anything else. -/
inductive CoverageEntry where
  | arr (codes : List String)
  | wrapped (codes : List String)
  | other
deriving Repr, DecidableEq

/-- The per-entry flattening of the handler: a plain array is kept, a wrapped
array is unwrapped, anything else is dropped from the result. -/
def normalizeEntry : CoverageEntry → Option (List String)
  | .arr l => some l
  | .wrapped l => some l
  | .other => none

/-- The flattening of the whole coverage mapping (lines 84 to 93 of the
handler): entries whose value has neither accepted shape are omitted. -/
def normalizeServicesByRegion (entries : List (String × CoverageEntry)) :
    List (String × List String) :=
  entries.filterMap fun e => (normalizeEntry e.2).map fun l => (e.1, l)

/-- The raw coverage container, possibly nested under `byRegion`
(`sourceData.servicesByRegion?.byRegion || sourceData.servicesByRegion`). -/
inductive CoverageRaw where
  | direct (entries : List (String × CoverageEntry))
  | nested (entries : List (String × CoverageEntry))
deriving Repr, DecidableEq

/-- The probed entries of the raw coverage container. -/
def CoverageRaw.entries : CoverageRaw → List (String × CoverageEntry)
  | .direct l => l
  | .nested l => l

/-- Probe `sourceData.servicesByRegion?.byRegion || sourceData.servicesByRegion` (or empty). -/
def rawCoverageEntries : Option CoverageRaw → List (String × CoverageEntry)
  | none => []
  | some c => c.entries

/-- The parsed primary source document as validated by the handler: each
top-level container is present or absent. -/
structure RawSource where
  metadata : Option MetadataRaw := none
  regions : Option (Container RegionRec) := none
  services : Option (Container String) := none
  servicesByRegion : Option CoverageRaw := none
deriving Repr, DecidableEq

/-- The code-to-name lookup built from the secondary services document with a
JavaScript `Map`: later entries for the same code overwrite earlier ones, so
the last occurrence wins. -/
def lookupLast (names : List (String × String)) (code : String) : Option String :=
  (names.reverse.find? fun p => p.1 == code).map Prod.snd

/-- The service enrichment of the handler: every service code becomes a
`{code, name}` record, the name taken from the secondary document or falling
back to the code itself. -/
def enrichServices (codes : List String) (names : List (String × String)) :
    List ServiceRec :=
  codes.map fun c => { code := c, name := (lookupLast names c).getD c }

/-- Steps 2 and 3 of the handler: validation fails with the fatal error when
`metadata`, `regions` or `services` is absent; otherwise the containers are
probed and the coverage mapping flattened into the normalized `SourceData`. -/
def handlerNormalize (d : RawSource) (servicesWithNames : List (String × String)) :
    Except String SourceData :=
  if d.metadata.isNone || d.regions.isNone || d.services.isNone then
    .error "Invalid data structure: missing required fields (metadata, regions, or services)"
  else
    .ok
      { regions := (d.regions.map Container.items).getD []
        services := enrichServices ((d.services.map Container.items).getD []) servicesWithNames
        servicesByRegion := normalizeServicesByRegion (rawCoverageEntries d.servicesByRegion) }

/-! ## Claim C5: both coverage-mapping shapes normalize identically -/

/-- C5: for any region code and list of service codes, an entry given as a
plain array and an entry given as an object wrapping that array under a
`services` field normalize to the same internal service-code collection for
that region; in particular the two spellings of the `us-east-1` example
yield the same collection `["ec2", "s3"]`. -/
theorem coverage_entry_shapes_normalize_same :
    (∀ (m : List (String × CoverageEntry)) (r : String) (l : List String),
      normalizeServicesByRegion ((r, CoverageEntry.arr l) :: m) =
        normalizeServicesByRegion ((r, CoverageEntry.wrapped l) :: m))
    ∧ lookupRegion (normalizeServicesByRegion [("us-east-1", CoverageEntry.arr ["ec2", "s3"])])
        "us-east-1" = ["ec2", "s3"]
    ∧ lookupRegion (normalizeServicesByRegion [("us-east-1", CoverageEntry.wrapped ["ec2", "s3"])])
        "us-east-1" = ["ec2", "s3"] := by
  refine ⟨?_, by decide, by decide⟩
  intro m r l
  simp [normalizeServicesByRegion, normalizeEntry]

/-! ## Claim C8: the retention sweep -/

/-- C8: the retention sweep partitions the listed objects against the cutoff
`now - retentionDays`: `retained` counts the objects modified at or after the
cutoff, `deleted` counts the expired objects whose individual deletion
succeeded (a failed deletion is skipped without aborting the sweep); the
concrete scenario with object ages 1, 5, 8 and 10 days and a 7-day window
returns 2 retained and 2 deleted. -/
theorem retention_sweep_partitions :
    (∀ (objects : List ArchiveObject) (now : Int) (days : Nat)
        (deleteSucceeds : String → Bool),
      (manageArchiveRetention objects (retentionCutoff now days) deleteSucceeds).retained
          = (objects.filter fun o => retentionCutoff now days ≤ o.lastModified).length
      ∧ (manageArchiveRetention objects (retentionCutoff now days) deleteSucceeds).deleted
          = (objects.filter fun o =>
              decide (o.lastModified < retentionCutoff now days) && deleteSucceeds o.key).length)
    ∧ manageArchiveRetention
        [⟨"age1", retentionCutoff 0 1⟩, ⟨"age5", retentionCutoff 0 5⟩,
          ⟨"age8", retentionCutoff 0 8⟩, ⟨"age10", retentionCutoff 0 10⟩]
        (retentionCutoff 0 7) (fun _ => true) = ⟨2, 2⟩ := by
  refine ⟨?_, by decide⟩
  intro objects now days deleteSucceeds
  set cutoff := retentionCutoff now days with hcut
  have hfun : (fun o : ArchiveObject => decide (¬ o.lastModified < cutoff))
      = fun o : ArchiveObject => decide (cutoff ≤ o.lastModified) := by
    funext o
    simp [not_lt]
  by_cases h : objects.isEmpty
  · rw [List.isEmpty_iff] at h
    subst h
    simp [manageArchiveRetention]
  · constructor
    · simp [manageArchiveRetention, h, hfun]
    · simp [manageArchiveRetention, h, List.filter_filter, Bool.and_comm]

/-! ## Counting: the Map counter versus counting regions -/

theorem countFor_aux (m : List (String × List String)) (code : String) (a : Nat) :
    m.foldl (fun acc e => acc + e.2.count code) a = a + countFor m code := by
  induction m generalizing a with
  | nil => simp [countFor]
  | cons e m ih =>
    rw [countFor, List.foldl_cons, List.foldl_cons, ih, ih]
    omega

theorem countFor_cons (e : String × List String) (m : List (String × List String))
    (code : String) :
    countFor (e :: m) code = e.2.count code + countFor m code := by
  rw [countFor, List.foldl_cons, countFor_aux]
  omega

theorem countFor_append (m1 m2 : List (String × List String)) (code : String) :
    countFor (m1 ++ m2) code = countFor m1 code + countFor m2 code := by
  induction m1 with
  | nil => simp [countFor]
  | cons e m1 ih => rw [List.cons_append, countFor_cons, countFor_cons, ih]; omega

theorem lookupRegion_cons (k : String) (v : List String)
    (m : List (String × List String)) (rc : String) :
    lookupRegion ((k, v) :: m) rc = if k == rc then v else lookupRegion m rc := by
  by_cases h : (k == rc) = true <;> simp [lookupRegion, List.find?_cons, h]

theorem lookupRegion_not_mem {m : List (String × List String)} {rc : String}
    (h : rc ∉ m.map Prod.fst) : lookupRegion m rc = [] := by
  induction m with
  | nil => rfl
  | cons e m ih =>
    rw [show e = (e.1, e.2) from rfl, lookupRegion_cons]
    rw [List.map_cons, List.mem_cons] at h
    push_neg at h
    rw [if_neg (by simp [beq_eq_false_iff_ne.mpr (Ne.symm h.1)]), ih h.2]

/-- Adding one mapping entry with a fresh key adds to the count of covered
regions exactly the contribution of the region carrying that key. -/
theorem filter_regions_cons_entry (code k : String) (v : List String)
    (m : List (String × List String)) (regs : List RegionRec)
    (hreg : (regs.map probeRegionCode).Nodup) (hk : k ∉ m.map Prod.fst) :
    (regs.filter fun r => (lookupRegion ((k, v) :: m) (probeRegionCode r)).contains code).length
      = (regs.filter fun r => (lookupRegion m (probeRegionCode r)).contains code).length
        + (if k ∈ regs.map probeRegionCode then (if v.contains code then 1 else 0) else 0) := by
  induction regs with
  | nil => simp
  | cons r regs ih =>
    rw [List.map_cons, List.nodup_cons] at hreg
    obtain ⟨hr, hnd⟩ := hreg
    by_cases hkr : k = probeRegionCode r
    · subst hkr
    -- the head region carries the fresh key: the new entry decides it, the
    -- tail is untouched, and the head contributes nothing on the old mapping
      have htail : (regs.filter fun x =>
            (lookupRegion ((probeRegionCode r, v) :: m) (probeRegionCode x)).contains code)
          = regs.filter fun x => (lookupRegion m (probeRegionCode x)).contains code := by
        refine List.filter_congr fun x hx => ?_
        have hne : probeRegionCode r ≠ probeRegionCode x := fun hh =>
          hr (hh ▸ List.mem_map_of_mem probeRegionCode hx)
        rw [lookupRegion_cons, if_neg (by simp [beq_eq_false_iff_ne.mpr hne])]
      have hhead : lookupRegion ((probeRegionCode r, v) :: m) (probeRegionCode r) = v := by
        rw [lookupRegion_cons, if_pos (beq_self_eq_true (probeRegionCode r))]
      have hheadm : lookupRegion m (probeRegionCode r) = [] := lookupRegion_not_mem hk
      rw [List.filter_cons, List.filter_cons, hhead, hheadm, htail]
      have hmem : probeRegionCode r ∈ (r :: regs).map probeRegionCode := by simp
      by_cases hv : code ∈ v <;> simp [hv, hmem]
    · have hhead : lookupRegion ((k, v) :: m) (probeRegionCode r)
          = lookupRegion m (probeRegionCode r) := by
        rw [lookupRegion_cons, if_neg (by simp [beq_eq_false_iff_ne.mpr hkr])]
      have hmem : (k ∈ (r :: regs).map probeRegionCode) ↔ (k ∈ regs.map probeRegionCode) := by
        simp [List.map_cons, List.mem_cons, hkr]
      have hih := ih hnd
      rw [List.filter_cons, List.filter_cons, hhead]
      by_cases hp : (lookupRegion m (probeRegionCode r)).contains code
      · simp only [hp, if_true, List.length_cons, hih, hmem]
        omega
      · simp only [hp, Bool.false_eq_true, if_false, hih, hmem]

/-- The Map-based count of `createServicesSheet` equals, on a canonical
model, the number of regions whose coverage set contains the code. -/
theorem countFor_eq_filter_regions (code : String)
    (m : List (String × List String)) (regs : List RegionRec)
    (hkeys : (m.map Prod.fst).Nodup)
    (hsub : ∀ e ∈ m, e.1 ∈ regs.map probeRegionCode)
    (hval : ∀ e ∈ m, e.2.Nodup)
    (hreg : (regs.map probeRegionCode).Nodup) :
    countFor m code
      = (regs.filter fun r => (lookupRegion m (probeRegionCode r)).contains code).length := by
  induction m with
  | nil =>
    simp [countFor, lookupRegion]
  | cons e m ih =>
    obtain ⟨k, v⟩ := e
    rw [List.map_cons, List.nodup_cons] at hkeys
    obtain ⟨hkfresh, hknd⟩ := hkeys
    have hcount : v.count code = if v.contains code then 1 else 0 := by
      by_cases hvc : v.contains code = true
      · rw [if_pos hvc]
        exact List.count_eq_one_of_mem (hval (k, v) (by simp)) (List.elem_iff.mp hvc)
      · rw [if_neg hvc]
        exact List.count_eq_zero_of_not_mem fun hmem =>
          hvc (List.elem_iff.mpr hmem)
    rw [countFor_cons, hcount, filter_regions_cons_entry code k v m regs hreg hkfresh,
      if_pos (hsub (k, v) (by simp)),
      ih hknd (fun e he => hsub e (by simp [he])) (fun e he => hval e (by simp [he]))]
    omega

/-! ## The rounding of the coverage percentage -/

theorem roundTenths_le (c t : Nat) (hc : c ≤ t) (ht : 0 < t) :
    roundTenths c t ≤ 1000 := by
  have h1000 : (2000 * t + t) / (2 * t) = 1000 := by
    rw [show 2000 * t + t = t + 2 * t * 1000 by ring,
      Nat.add_mul_div_left t 1000 (by omega), Nat.div_eq_of_lt (by omega)]
  calc roundTenths c t = (2000 * c + t) / (2 * t) := rfl
    _ ≤ (2000 * t + t) / (2 * t) := Nat.div_le_div_right (by omega)
    _ = 1000 := h1000

/-- The value `roundTenths c t` is the floor of `1000 * c / t + 1/2`: the integer closest
to ten times the true percentage, the larger one on ties, as `toFixed(1)`
specifies. -/
theorem roundTenths_eq_floor (c t : Nat) (ht : 0 < t) :
    roundTenths c t = ⌊(1000 * c / t + 1 / 2 : ℚ)⌋₊ := by
  have htq : (0 : ℚ) < t := by exact_mod_cast ht
  have hform : (1000 * c / t + 1 / 2 : ℚ) = (2000 * c + t) / (2 * t) := by
    field_simp
    ring
  symm
  rw [Nat.floor_eq_iff (by positivity), hform]
  have hD : (0 : ℚ) < 2 * t := by positivity
  set n := roundTenths c t with hn
  have h1 : 2 * t * n ≤ 2000 * c + t := by
    have := Nat.div_mul_le_self (2000 * c + t) (2 * t)
    calc 2 * t * n = (2000 * c + t) / (2 * t) * (2 * t) := by rw [hn, roundTenths]; ring
      _ ≤ 2000 * c + t := this
  have h2 : 2000 * c + t < 2 * t * (n + 1) := by
    have hlt := @Nat.mod_lt (2000 * c + t) (2 * t) (by omega)
    have hmod := Nat.div_add_mod (2000 * c + t) (2 * t)
    have hdiv : 2000 * c + t < 2 * t * ((2000 * c + t) / (2 * t) + 1) := by
      calc 2000 * c + t
          = 2 * t * ((2000 * c + t) / (2 * t)) + (2000 * c + t) % (2 * t) := hmod.symm
        _ < 2 * t * ((2000 * c + t) / (2 * t)) + 2 * t := by omega
        _ = 2 * t * ((2000 * c + t) / (2 * t) + 1) := by ring
    rw [hn, roundTenths]
    exact hdiv
  constructor
  · rw [le_div_iff₀ hD]
    calc (n : ℚ) * (2 * t) = ((2 * t * n : Nat) : ℚ) := by push_cast; ring
      _ ≤ ((2000 * c + t : Nat) : ℚ) := by exact_mod_cast h1
      _ = 2000 * (c : ℚ) + t := by push_cast; ring
  · rw [div_lt_iff₀ hD]
    calc 2000 * (c : ℚ) + t = ((2000 * c + t : Nat) : ℚ) := by push_cast; ring
      _ < ((2 * t * (n + 1) : Nat) : ℚ) := by exact_mod_cast h2
      _ = ((n : ℚ) + 1) * (2 * t) := by push_cast; ring

/-! ## Claim C1: the coverage percentage -/

/-- C1: on a canonical model (mapping keys distinct and drawn from the region
codes, region codes distinct, per-region coverage sets duplicate-free), every
Services sheet row carries as available-region count exactly the number of
regions whose coverage set contains the service code of the row; with no regions
the percentage cell is the literal `"0%"` (no division occurs); otherwise the
cell is the percentage rounded to one decimal place, the rounded tenths value
is at most 1000 (so the percentage lies in [0,100]) and equals the floor of
`1000 * count / total + 1/2`, i.e. 100 times the covered fraction rounded to
one decimal with ties upward. -/
theorem servicesSheet_coverage_percentage (d : SourceData)
    (hkeys : (d.servicesByRegion.map Prod.fst).Nodup)
    (hsub : ∀ e ∈ d.servicesByRegion, e.1 ∈ d.regions.map probeRegionCode)
    (hval : ∀ e ∈ d.servicesByRegion, e.2.Nodup)
    (hreg : (d.regions.map probeRegionCode).Nodup) :
    ∀ row ∈ createServicesSheet d,
      row.availableRegions = regionsContaining d row.serviceCode
      ∧ (d.regions.length = 0 → row.coveragePercent = "0%")
      ∧ (0 < d.regions.length →
          row.coveragePercent
              = fmtTenths (roundTenths (regionsContaining d row.serviceCode)
                  d.regions.length) ++ "%"
          ∧ roundTenths (regionsContaining d row.serviceCode) d.regions.length ≤ 1000
          ∧ roundTenths (regionsContaining d row.serviceCode) d.regions.length
              = ⌊(1000 * (regionsContaining d row.serviceCode : ℚ) / d.regions.length
                  + 1 / 2 : ℚ)⌋₊) := by
  intro row hrow
  rw [createServicesSheet, List.mem_map] at hrow
  obtain ⟨s, hs, rfl⟩ := hrow
  have hsc : (serviceRowOf d s).serviceCode = probeServiceCode s := rfl
  have hav : (serviceRowOf d s).availableRegions
      = countFor d.servicesByRegion (probeServiceCode s) := rfl
  have hcp : (serviceRowOf d s).coveragePercent
      = coveragePercentCell (countFor d.servicesByRegion (probeServiceCode s))
          d.regions.length := rfl
  have htrans : countFor d.servicesByRegion (probeServiceCode s)
      = regionsContaining d (probeServiceCode s) :=
    countFor_eq_filter_regions (probeServiceCode s) d.servicesByRegion d.regions
      hkeys hsub hval hreg
  refine ⟨?_, ?_, ?_⟩
  · rw [hav, hsc, htrans]
  · intro h0
    rw [hcp, coveragePercentCell, if_pos h0]
  · intro hpos
    have hle : regionsContaining d (probeServiceCode s) ≤ d.regions.length :=
      List.length_filter_le _ _
    refine ⟨?_, ?_, ?_⟩
    · rw [hcp, coveragePercentCell, if_neg (by omega), hsc, htrans]
    · rw [hsc]
      exact roundTenths_le _ _ hle hpos
    · rw [hsc]
      exact roundTenths_eq_floor _ _ hpos

/-- A small concrete canonical model: two regions, two services, `s3`
available in both regions and `ec2` in one. -/
def sampleModel : SourceData :=
  { regions := [{ code := "r1" }, { code := "r2" }]
    services := [{ code := "s3", name := "S3" }, { code := "ec2", name := "EC2" }]
    servicesByRegion := [("r1", ["s3", "ec2"]), ("r2", ["s3"])] }

/-- C1 witness: the theorem applied to the concrete sample model, all
hypotheses discharged by evaluation. -/
theorem servicesSheet_coverage_percentage_witness :
    ((sampleModel.servicesByRegion.map Prod.fst).Nodup
      ∧ (∀ e ∈ sampleModel.servicesByRegion, e.1 ∈ sampleModel.regions.map probeRegionCode)
      ∧ (∀ e ∈ sampleModel.servicesByRegion, e.2.Nodup)
      ∧ (sampleModel.regions.map probeRegionCode).Nodup)
    ∧ (∀ row ∈ createServicesSheet sampleModel,
        row.availableRegions = regionsContaining sampleModel row.serviceCode
        ∧ (sampleModel.regions.length = 0 → row.coveragePercent = "0%")
        ∧ (0 < sampleModel.regions.length →
            row.coveragePercent
                = fmtTenths (roundTenths (regionsContaining sampleModel row.serviceCode)
                    sampleModel.regions.length) ++ "%"
            ∧ roundTenths (regionsContaining sampleModel row.serviceCode)
                sampleModel.regions.length ≤ 1000
            ∧ roundTenths (regionsContaining sampleModel row.serviceCode)
                sampleModel.regions.length
                = ⌊(1000 * (regionsContaining sampleModel row.serviceCode : ℚ)
                    / sampleModel.regions.length + 1 / 2 : ℚ)⌋₊)) :=
  ⟨⟨by decide, by decide, by decide, by decide⟩,
    servicesSheet_coverage_percentage sampleModel
      (by decide) (by decide) (by decide) (by decide)⟩

/-! ## Claim C10: the shape of the percentage cell -/

/-- C10: every Coverage % cell is a string ending in `%`; with no regions it
is exactly `"0%"` (no decimal digit); with at least one region it always
carries exactly one decimal digit, and in particular a service available in
zero regions renders `"0.0%"`, so the two zero cases are distinguishable. -/
theorem servicesSheet_percent_cell_format (d : SourceData) :
    (∀ row ∈ createServicesSheet d, ∃ t, row.coveragePercent = t ++ "%")
    ∧ (d.regions = [] → ∀ row ∈ createServicesSheet d, row.coveragePercent = "0%")
    ∧ (d.regions ≠ [] →
        ∀ row ∈ createServicesSheet d,
          ∃ a b : Nat, b < 10 ∧ (toString b).length = 1
            ∧ row.coveragePercent = toString a ++ "." ++ toString b ++ "%")
    ∧ (d.regions ≠ [] →
        ∀ row ∈ createServicesSheet d, row.availableRegions = 0 →
          row.coveragePercent = "0.0%")
    ∧ ("0%" : String) ≠ "0.0%" := by
  have hcell : ∀ row ∈ createServicesSheet d,
      ∃ cnt, row.availableRegions = cnt
        ∧ row.coveragePercent = coveragePercentCell cnt d.regions.length := by
    intro row hrow
    rw [createServicesSheet, List.mem_map] at hrow
    obtain ⟨s, hs, rfl⟩ := hrow
    exact ⟨countFor d.servicesByRegion (probeServiceCode s), rfl, rfl⟩
  refine ⟨?_, ?_, ?_, ?_, by decide⟩
  · intro row hrow
    obtain ⟨cnt, -, hcp⟩ := hcell row hrow
    rw [hcp, coveragePercentCell]
    by_cases h0 : d.regions.length = 0
    · exact ⟨"0", by rw [if_pos h0]; rfl⟩
    · exact ⟨fmtTenths (roundTenths cnt d.regions.length), by rw [if_neg h0]⟩
  · intro hnil row hrow
    obtain ⟨cnt, -, hcp⟩ := hcell row hrow
    rw [hcp, coveragePercentCell, if_pos (by simp [hnil])]
  · intro hne row hrow
    obtain ⟨cnt, -, hcp⟩ := hcell row hrow
    have h0 : d.regions.length ≠ 0 := by
      simpa [List.length_eq_zero] using hne
    refine ⟨roundTenths cnt d.regions.length / 10, roundTenths cnt d.regions.length % 10,
      Nat.mod_lt _ (by omega), ?_, ?_⟩
    · have hb : roundTenths cnt d.regions.length % 10 < 10 := Nat.mod_lt _ (by omega)
      interval_cases h : roundTenths cnt d.regions.length % 10 <;> rfl
    · rw [hcp, coveragePercentCell, if_neg h0, fmtTenths]
  · intro hne row hrow hz
    obtain ⟨cnt, hav, hcp⟩ := hcell row hrow
    have h0 : d.regions.length ≠ 0 := by
      simpa [List.length_eq_zero] using hne
    have hcnt : cnt = 0 := by omega
    have hzero : roundTenths 0 d.regions.length = 0 := by
      rw [roundTenths]
      exact Nat.div_eq_of_lt (by omega)
    rw [hcp, hcnt, coveragePercentCell, if_neg h0, hzero]
    rfl

/-- C10 witness: the one-decimal shape of every cell of the sample model,
obtained by applying the theorem with its region-nonemptiness hypothesis
discharged by evaluation. -/
theorem servicesSheet_percent_cell_format_witness :
    sampleModel.regions ≠ []
    ∧ (∀ row ∈ createServicesSheet sampleModel,
        ∃ a b : Nat, b < 10 ∧ (toString b).length = 1
          ∧ row.coveragePercent = toString a ++ "." ++ toString b ++ "%") :=
  ⟨by decide, (servicesSheet_percent_cell_format sampleModel).2.2.1 (by decide)⟩

/-! ## Claim C6: launch-date rendering on the Regions sheet -/

/-- A region whose launch date is present but unparseable. -/
def unparseableDateRegion : RegionRec := { code := "r1", launchDate := "not-a-date" }

/-- A region with no launch date. -/
def missingDateRegion : RegionRec := { code := "r2" }

/-- A region with a parseable ISO launch date. -/
def parseableDateRegion : RegionRec := { code := "r3", launchDate := "2015-06-08" }

/-- C6, evaluated at the inputs the claim is about: an absent launch date
renders `"N/A"` gray italic and a parseable one renders `YYYY-MM-DD`, but a
present unparseable launch date also renders `"N/A"` (gray italic) rather
than passing through as the raw text: the `Date` constructor returns an
Invalid Date instead of throwing, the `isNaN` guard keeps the initial
`"N/A"`, and the `catch` branch that would restore the raw text is dead. -/
theorem launchDate_unparseable_renders_na :
    (createRegionsSheet jsDateParse
        { regions := [missingDateRegion, unparseableDateRegion, parseableDateRegion]
          services := []
          servicesByRegion := [] }).map
        (fun row => (row.launchDate, row.launchDateGrayItalic))
      = [("N/A", true), ("N/A", true), ("2015-06-08", false)]
    ∧ ("N/A" : String) ≠ "not-a-date" := by
  refine ⟨?_, by decide⟩
  decide

/-! ## Claim C2: the style bands -/

/-- The tenths value whose rendering the percentage cell displays: 0 with no
regions, otherwise the covered-region count rounded to tenths of a percent. -/
def displayedTenths (d : SourceData) (code : String) : Nat :=
  if d.regions.length = 0 then 0 else roundTenths (regionsContaining d code) d.regions.length

theorem percentStyle_eq_bands (cnt total : Nat)
    (h : (if total = 0 then 0 else roundTenths cnt total) ≤ 1000) :
    (percentStyle cnt total = CellStyle.greenBold
        ↔ (if total = 0 then 0 else roundTenths cnt total) = 1000)
    ∧ (percentStyle cnt total = CellStyle.lightGreen
        ↔ 750 ≤ (if total = 0 then 0 else roundTenths cnt total)
          ∧ (if total = 0 then 0 else roundTenths cnt total) < 1000)
    ∧ (percentStyle cnt total = CellStyle.orange
        ↔ 500 ≤ (if total = 0 then 0 else roundTenths cnt total)
          ∧ (if total = 0 then 0 else roundTenths cnt total) < 750)
    ∧ (percentStyle cnt total = CellStyle.red
        ↔ 0 < (if total = 0 then 0 else roundTenths cnt total)
          ∧ (if total = 0 then 0 else roundTenths cnt total) < 500)
    ∧ (percentStyle cnt total = CellStyle.grayItalic
        ↔ (if total = 0 then 0 else roundTenths cnt total) = 0) := by
  simp only [percentStyle]
  split_ifs with h1 h2 h3 h4 <;>
    refine ⟨?_, ?_, ?_, ?_, ?_⟩ <;>
    simp_all <;>
    omega

/-- C2 amended: on a canonical model, the coverage-percentage cell style is
chosen by the exact bands on the percentage rounded to one decimal place (the
displayed value): 100.0 percent gets the emphasized green bold, [75.0,100.0)
the mild light green, [50.0,75.0) the orange, (0,50.0) the red, and 0.0
percent (also the zero-region case) the muted gray italic; in particular a
service present in zero regions gets the muted style and never the red one. -/
theorem servicesSheet_style_bands (d : SourceData)
    (hkeys : (d.servicesByRegion.map Prod.fst).Nodup)
    (hsub : ∀ e ∈ d.servicesByRegion, e.1 ∈ d.regions.map probeRegionCode)
    (hval : ∀ e ∈ d.servicesByRegion, e.2.Nodup)
    (hreg : (d.regions.map probeRegionCode).Nodup) :
    ∀ row ∈ createServicesSheet d,
      (row.style = CellStyle.greenBold ↔ displayedTenths d row.serviceCode = 1000)
      ∧ (row.style = CellStyle.lightGreen
          ↔ 750 ≤ displayedTenths d row.serviceCode
            ∧ displayedTenths d row.serviceCode < 1000)
      ∧ (row.style = CellStyle.orange
          ↔ 500 ≤ displayedTenths d row.serviceCode
            ∧ displayedTenths d row.serviceCode < 750)
      ∧ (row.style = CellStyle.red
          ↔ 0 < displayedTenths d row.serviceCode
            ∧ displayedTenths d row.serviceCode < 500)
      ∧ (row.style = CellStyle.grayItalic ↔ displayedTenths d row.serviceCode = 0)
      ∧ (regionsContaining d row.serviceCode = 0 →
          row.style = CellStyle.grayItalic) := by
  intro row hrow
  rw [createServicesSheet, List.mem_map] at hrow
  obtain ⟨s, hs, rfl⟩ := hrow
  have hsc : (serviceRowOf d s).serviceCode = probeServiceCode s := rfl
  have hstyle : (serviceRowOf d s).style
      = percentStyle (countFor d.servicesByRegion (probeServiceCode s))
          d.regions.length := rfl
  have htrans : countFor d.servicesByRegion (probeServiceCode s)
      = regionsContaining d (probeServiceCode s) :=
    countFor_eq_filter_regions (probeServiceCode s) d.servicesByRegion d.regions
      hkeys hsub hval hreg
  have hdt : displayedTenths d ((serviceRowOf d s).serviceCode)
      = (if d.regions.length = 0 then 0
          else roundTenths (regionsContaining d (probeServiceCode s)) d.regions.length) := by
    rw [hsc, displayedTenths]
  have hbound : (if d.regions.length = 0 then 0
      else roundTenths (regionsContaining d (probeServiceCode s)) d.regions.length) ≤ 1000 := by
    split_ifs with h0
    · omega
    · exact roundTenths_le _ _ (List.length_filter_le _ _) (by omega)
  have hbands := percentStyle_eq_bands (regionsContaining d (probeServiceCode s))
    d.regions.length hbound
  have hstyle2 : (serviceRowOf d s).style
      = percentStyle (regionsContaining d (probeServiceCode s)) d.regions.length := by
    rw [hstyle, htrans]
  refine ⟨?_, ?_, ?_, ?_, ?_, ?_⟩
  · rw [hstyle2, hdt]; exact hbands.1
  · rw [hstyle2, hdt]; exact hbands.2.1
  · rw [hstyle2, hdt]; exact hbands.2.2.1
  · rw [hstyle2, hdt]; exact hbands.2.2.2.1
  · rw [hstyle2, hdt]; exact hbands.2.2.2.2
  · intro hz
    rw [hsc] at hz
    have hzero : (if d.regions.length = 0 then 0
        else roundTenths (regionsContaining d (probeServiceCode s)) d.regions.length) = 0 := by
      split_ifs with h0
      · rfl
      · rw [hz, roundTenths]
        exact Nat.div_eq_of_lt (by omega)
    rw [hstyle2]
    exact hbands.2.2.2.2.mpr hzero

/-- C2 witness: the amended theorem applied to the concrete sample model,
all hypotheses discharged by evaluation. -/
theorem servicesSheet_style_bands_witness :
    ((sampleModel.servicesByRegion.map Prod.fst).Nodup
      ∧ (∀ e ∈ sampleModel.servicesByRegion, e.1 ∈ sampleModel.regions.map probeRegionCode)
      ∧ (∀ e ∈ sampleModel.servicesByRegion, e.2.Nodup)
      ∧ (sampleModel.regions.map probeRegionCode).Nodup)
    ∧ (∀ row ∈ createServicesSheet sampleModel,
        (row.style = CellStyle.greenBold
            ↔ displayedTenths sampleModel row.serviceCode = 1000)
        ∧ (row.style = CellStyle.lightGreen
            ↔ 750 ≤ displayedTenths sampleModel row.serviceCode
              ∧ displayedTenths sampleModel row.serviceCode < 1000)
        ∧ (row.style = CellStyle.orange
            ↔ 500 ≤ displayedTenths sampleModel row.serviceCode
              ∧ displayedTenths sampleModel row.serviceCode < 750)
        ∧ (row.style = CellStyle.red
            ↔ 0 < displayedTenths sampleModel row.serviceCode
              ∧ displayedTenths sampleModel row.serviceCode < 500)
        ∧ (row.style = CellStyle.grayItalic
            ↔ displayedTenths sampleModel row.serviceCode = 0)
        ∧ (regionsContaining sampleModel row.serviceCode = 0 →
            row.style = CellStyle.grayItalic)) :=
  ⟨⟨by decide, by decide, by decide, by decide⟩,
    servicesSheet_style_bands sampleModel (by decide) (by decide) (by decide) (by decide)⟩

/-! ### C2 counterexample: the bands act on the rounded value -/

/-- Pairwise distinct non-empty region codes. -/
def cexCode (i : Nat) : String := String.mk (List.replicate (i + 1) 'a')

/-- 2000 regions with distinct codes. -/
def cexRegions : List RegionRec := (List.range 2000).map fun i => { code := cexCode i }

/-- A coverage mapping putting the service `svc` in the first 1999 regions
and nothing in the last one. -/
def cexMapping : List (String × List String) :=
  ((List.range 1999).map fun i => (cexCode i, ["svc"])) ++ [(cexCode 1999, ([] : List String))]

/-- The canonical model on which the style claim fails: 1999 of 2000 regions
cover the single service. -/
def cexModel : SourceData :=
  { regions := cexRegions
    services := [{ code := "svc", name := "Svc" }]
    servicesByRegion := cexMapping }

theorem cexCode_injective : Function.Injective cexCode := by
  intro i j h
  have hlen := congrArg String.length h
  simpa [cexCode, String.length] using hlen

theorem cexCode_ne_empty (i : Nat) : cexCode i ≠ "" := by
  intro h
  have hlen := congrArg String.length h
  simp [cexCode, String.length] at hlen

theorem probe_cexRegion (i : Nat) :
    probeRegionCode { code := cexCode i } = cexCode i := by
  rw [probeRegionCode, orFalsy, if_neg (cexCode_ne_empty i)]

theorem cexRegions_codes :
    cexRegions.map probeRegionCode = (List.range 2000).map cexCode := by
  rw [cexRegions, List.map_map]
  exact List.map_congr_left fun i _ => probe_cexRegion i

theorem cexCodes_split :
    (List.range 2000).map cexCode = (List.range 1999).map cexCode ++ [cexCode 1999] := by
  rw [show (2000 : Nat) = 1999 + 1 from rfl, List.range_succ, List.map_append,
    List.map_singleton]

theorem cexMapping_keys :
    cexMapping.map Prod.fst = (List.range 2000).map cexCode := by
  rw [cexMapping, List.map_append, List.map_map, cexCodes_split]
  exact congrArg₂ (· ++ ·) (List.map_congr_left fun i _ => rfl) rfl

theorem countFor_map_range_const (g : Nat → String) (s : String) (k : Nat) :
    countFor ((List.range k).map fun i => (g i, [s])) s = k := by
  induction k with
  | zero => simp [countFor]
  | succ k ih =>
    rw [List.range_succ, List.map_append, countFor_append, ih]
    simp [countFor_cons, countFor, List.count_cons]

theorem serviceRowOf_style (d : SourceData) (s : ServiceRec) :
    (serviceRowOf d s).style
      = percentStyle (countFor d.servicesByRegion (probeServiceCode s)) d.regions.length := rfl

theorem serviceRowOf_serviceCode (d : SourceData) (s : ServiceRec) :
    (serviceRowOf d s).serviceCode = probeServiceCode s := rfl

theorem cexMapping_count : countFor cexMapping "svc" = 1999 := by
  rw [cexMapping, countFor_append, countFor_map_range_const]
  simp [countFor_cons, countFor]

/-- C2 counterexample: a canonical model (all side conditions verified) with
2000 regions in which the single service is covered in exactly 1999 regions.
The true coverage fraction is 99.95 percent, inside the claimed [75,100) band
whose style is the mild light green, yet the displayed value rounds to 100.0
and the code styles the cell with the emphasized green bold: the bands act on
the rounded displayed percentage, not on the true coverage fraction. -/
theorem style_uses_rounded_value_cex :
    ((cexModel.servicesByRegion.map Prod.fst).Nodup
      ∧ (∀ e ∈ cexModel.servicesByRegion, e.1 ∈ cexModel.regions.map probeRegionCode)
      ∧ (∀ e ∈ cexModel.servicesByRegion, e.2.Nodup)
      ∧ (cexModel.regions.map probeRegionCode).Nodup)
    ∧ cexModel.regions.length = 2000
    ∧ regionsContaining cexModel "svc" = 1999
    ∧ ((75 : ℚ) ≤ 100 * 1999 / 2000 ∧ (100 * 1999 / 2000 : ℚ) < 100)
    ∧ (createServicesSheet cexModel).map (fun row => (row.serviceCode, row.style))
        = [("svc", CellStyle.greenBold)]
    ∧ CellStyle.greenBold ≠ CellStyle.lightGreen := by
  have hnodup : ((List.range 2000).map cexCode).Nodup :=
    List.Nodup.map cexCode_injective (List.nodup_range 2000)
  have hk : (cexModel.servicesByRegion.map Prod.fst).Nodup := by
    show (cexMapping.map Prod.fst).Nodup
    rw [cexMapping_keys]
    exact hnodup
  have hs : ∀ e ∈ cexModel.servicesByRegion, e.1 ∈ cexModel.regions.map probeRegionCode := by
    intro e he
    show e.1 ∈ cexRegions.map probeRegionCode
    rw [cexRegions_codes, ← cexMapping_keys]
    exact List.mem_map_of_mem Prod.fst he
  have hv : ∀ e ∈ cexModel.servicesByRegion, e.2.Nodup := by
    intro e he
    rcases List.mem_append.mp he with h | h
    · obtain ⟨i, -, rfl⟩ := List.mem_map.mp h
      simp
    · rw [List.mem_singleton.mp h]
      simp
  have hr : (cexModel.regions.map probeRegionCode).Nodup := by
    show (cexRegions.map probeRegionCode).Nodup
    rw [cexRegions_codes]
    exact hnodup
  have hlen : cexModel.regions.length = 2000 := by
    show cexRegions.length = 2000
    rw [cexRegions, List.length_map, List.length_range]
  have hcnt : countFor cexModel.servicesByRegion "svc" = 1999 := cexMapping_count
  have hrc : regionsContaining cexModel "svc" = 1999 := by
    have htrans := countFor_eq_filter_regions "svc" cexModel.servicesByRegion
      cexModel.regions hk hs hv hr
    show (cexModel.regions.filter fun r =>
        (lookupRegion cexModel.servicesByRegion (probeRegionCode r)).contains "svc").length = 1999
    rw [← htrans]
    exact hcnt
  refine ⟨⟨hk, hs, hv, hr⟩, hlen, hrc, by norm_num, ?_, by decide⟩
  have hsheet : createServicesSheet cexModel
      = [serviceRowOf cexModel { code := "svc", name := "Svc" }] := rfl
  have hpc : probeServiceCode { code := "svc", name := "Svc" } = "svc" := by decide
  have h1 : (serviceRowOf cexModel { code := "svc", name := "Svc" }).serviceCode = "svc" := by
    rw [serviceRowOf_serviceCode, hpc]
  have h2 : (serviceRowOf cexModel { code := "svc", name := "Svc" }).style
      = CellStyle.greenBold := by
    rw [serviceRowOf_style, hpc, hcnt, hlen]
    decide
  rw [hsheet, List.map_cons, List.map_nil, h1, h2]

/-! ## Properties of the stable keyed sort -/

theorem mem_stableInsert {key : α → String} {a x : α} {l : List α} :
    x ∈ stableInsert key a l ↔ x = a ∨ x ∈ l := by
  induction l with
  | nil => simp [stableInsert]
  | cons b l ih =>
    by_cases h : key a ≤ key b
    · simp [stableInsert, h]
    · simp only [stableInsert, if_neg h, List.mem_cons, ih]
      tauto

theorem sorted_stableInsert {key : α → String} (a : α) {l : List α}
    (h : List.Sorted (fun x y => key x ≤ key y) l) :
    List.Sorted (fun x y => key x ≤ key y) (stableInsert key a l) := by
  induction l with
  | nil => simp [stableInsert]
  | cons b l ih =>
    rw [List.sorted_cons] at h
    obtain ⟨hb, hl⟩ := h
    by_cases hab : key a ≤ key b
    · rw [stableInsert, if_pos hab, List.sorted_cons]
      refine ⟨?_, List.sorted_cons.mpr ⟨hb, hl⟩⟩
      intro x hx
      rcases List.mem_cons.mp hx with rfl | hx
      · exact hab
      · exact le_trans hab (hb x hx)
    · rw [stableInsert, if_neg hab, List.sorted_cons]
      refine ⟨?_, ih hl⟩
      intro x hx
      rcases mem_stableInsert.mp hx with rfl | hx
      · exact le_of_not_le hab
      · exact hb x hx

theorem sorted_sortByKey (key : α → String) (l : List α) :
    List.Sorted (fun x y => key x ≤ key y) (sortByKey key l) := by
  induction l with
  | nil => simp [sortByKey]
  | cons a l ih => exact sorted_stableInsert a ih

theorem mem_sortByKey {key : α → String} {x : α} {l : List α} :
    x ∈ sortByKey key l ↔ x ∈ l := by
  induction l with
  | nil => simp [sortByKey]
  | cons a l ih => simp [sortByKey, mem_stableInsert, ih]

theorem filter_stableInsert (key : α → String) (a : α) (l : List α) (k : String) :
    (stableInsert key a l).filter (fun x => key x == k)
      = (a :: l).filter (fun x => key x == k) := by
  induction l with
  | nil => simp [stableInsert]
  | cons b l ih =>
    by_cases hab : key a ≤ key b
    · rw [stableInsert, if_pos hab]
    · have hba : key b < key a := not_le.mp hab
      rw [stableInsert, if_neg hab]
      by_cases hak : key a = k
      · have hbk : ¬ key b = k := fun hbk => absurd hba (by rw [hak, ← hbk]; exact lt_irrefl _)
        simp [List.filter_cons, hak, hbk, ih]
      · simp [List.filter_cons, hak, ih]

theorem filter_sortByKey (key : α → String) (l : List α) (k : String) :
    (sortByKey key l).filter (fun x => key x == k) = l.filter (fun x => key x == k) := by
  induction l with
  | nil => rfl
  | cons a l ih =>
    rw [sortByKey, filter_stableInsert]
    simp [List.filter_cons, ih]

theorem stableInsert_congr {key1 key2 : α → String} {a : α} {l : List α}
    (ha : key1 a = key2 a) (hl : ∀ x ∈ l, key1 x = key2 x) :
    stableInsert key1 a l = stableInsert key2 a l := by
  induction l with
  | nil => rfl
  | cons b l ih =>
    have hb := hl b (by simp)
    rw [stableInsert, stableInsert, ha, hb]
    by_cases h : key2 a ≤ key2 b
    · rw [if_pos h, if_pos h]
    · rw [if_neg h, if_neg h, ih fun x hx => hl x (by simp [hx])]

theorem sortByKey_congr {key1 key2 : α → String} {l : List α}
    (hl : ∀ x ∈ l, key1 x = key2 x) :
    sortByKey key1 l = sortByKey key2 l := by
  induction l with
  | nil => rfl
  | cons a l ih =>
    rw [sortByKey, sortByKey, ih fun x hx => hl x (by simp [hx])]
    exact stableInsert_congr (hl a (by simp))
      fun x hx => hl x (by simp [mem_sortByKey.mp hx])

/-! ## Canonical service records

The handler always feeds the Excel generator records of the canonical shape
`{code, name}` (built by `enrichServices`), on which the alternate spellings
`serviceName` and `ServiceName` are absent. -/

theorem orFalsy_empty_left (a : String) : orFalsy "" a = a := by
  simp [orFalsy]

theorem orFalsy_empty_right (a : String) : orFalsy a "" = a := by
  by_cases h : a = "" <;> simp [orFalsy, h]

theorem sortKeyServices_canonical {s : ServiceRec}
    (h : s.serviceName = "" ∧ s.ServiceName = "") :
    sortKeyServices s = s.name.toLower := by
  rw [sortKeyServices, h.1, h.2, orFalsy_empty_left, orFalsy_empty_left]

theorem sortKeyCoverage_canonical {s : ServiceRec}
    (h : s.serviceName = "" ∧ s.ServiceName = "") :
    sortKeyCoverage s = s.name.toLower := by
  rw [sortKeyCoverage, h.1, h.2, orFalsy_empty_left, orFalsy_empty_right]

theorem displayServiceName_canonical {s : ServiceRec}
    (h : s.serviceName = "" ∧ s.ServiceName = "") :
    displayServiceName s = s.name := by
  rw [displayServiceName, h.1, h.2, orFalsy_empty_left, orFalsy_empty_right]

/-! ## Claim C3: Services sheet row order -/

/-- C3: for a list of canonical service records, the Services sheet rows are
sorted ascending by the case-insensitive display name (under the total order
on strings); ties are broken stably, in that the rows carrying any fixed
case-insensitive name are exactly the input records with that name, in input
order; and rendering is deterministic. -/
theorem servicesSheet_row_order (d : SourceData)
    (hc : ∀ s ∈ d.services, s.serviceName = "" ∧ s.ServiceName = "") :
    List.Sorted (fun r1 r2 : ServicesRow => r1.serviceName.toLower ≤ r2.serviceName.toLower)
        (createServicesSheet d)
    ∧ (∀ k : String,
        (createServicesSheet d).filter (fun r => r.serviceName.toLower == k)
          = ((d.services.filter fun s => (displayServiceName s).toLower == k).map
              (serviceRowOf d)))
    ∧ createServicesSheet d = createServicesSheet d := by
  have hdisp : ∀ s ∈ sortByKey sortKeyServices d.services,
      (displayServiceName s).toLower = sortKeyServices s := by
    intro s hs
    have hcs := hc s (mem_sortByKey.mp hs)
    rw [displayServiceName_canonical hcs, sortKeyServices_canonical hcs]
  refine ⟨?_, ?_, rfl⟩
  · rw [createServicesSheet, List.Sorted, List.pairwise_map]
    refine (sorted_sortByKey sortKeyServices d.services).imp_of_mem ?_
    intro a b ha hb hab
    show (displayServiceName a).toLower ≤ (displayServiceName b).toLower
    rw [hdisp a ha, hdisp b hb]
    exact hab
  · intro k
    rw [createServicesSheet, List.filter_map]
    have hcomp : ((fun r : ServicesRow => r.serviceName.toLower == k) ∘ serviceRowOf d)
        = fun s => (displayServiceName s).toLower == k := rfl
    rw [hcomp]
    congr 1
    calc (sortByKey sortKeyServices d.services).filter
            (fun s => (displayServiceName s).toLower == k)
        = (sortByKey sortKeyServices d.services).filter (fun s => sortKeyServices s == k) :=
          List.filter_congr fun s hs => by rw [hdisp s hs]
      _ = d.services.filter (fun s => sortKeyServices s == k) :=
          filter_sortByKey sortKeyServices d.services k
      _ = d.services.filter (fun s => (displayServiceName s).toLower == k) :=
          (List.filter_congr fun s hs => by
            have hcs := hc s hs
            rw [displayServiceName_canonical hcs, sortKeyServices_canonical hcs]).symm

/-- C3 witness: a concrete canonical input on which the theorem applies. -/
theorem servicesSheet_row_order_witness :
    (∀ s ∈ (SourceData.mk [] [{ code := "b", name := "Beta" }, { code := "a", name := "alpha" }] []).services,
        s.serviceName = "" ∧ s.ServiceName = "")
    ∧ (List.Sorted (fun r1 r2 : ServicesRow => r1.serviceName.toLower ≤ r2.serviceName.toLower)
        (createServicesSheet
          (SourceData.mk [] [{ code := "b", name := "Beta" }, { code := "a", name := "alpha" }] []))
      ∧ (∀ k : String,
          (createServicesSheet
              (SourceData.mk [] [{ code := "b", name := "Beta" }, { code := "a", name := "alpha" }] [])).filter
              (fun r => r.serviceName.toLower == k)
            = (((SourceData.mk [] [{ code := "b", name := "Beta" }, { code := "a", name := "alpha" }] []).services.filter
                fun s => (displayServiceName s).toLower == k).map
                (serviceRowOf
                  (SourceData.mk [] [{ code := "b", name := "Beta" }, { code := "a", name := "alpha" }] []))))
      ∧ createServicesSheet
            (SourceData.mk [] [{ code := "b", name := "Beta" }, { code := "a", name := "alpha" }] [])
          = createServicesSheet
              (SourceData.mk [] [{ code := "b", name := "Beta" }, { code := "a", name := "alpha" }] [])) :=
  ⟨by decide, servicesSheet_row_order _ (by decide)⟩

/-! ## Claim C4: the Coverage matrix lists services in the Services sheet order -/

/-- C4: for a canonical model with a non-empty coverage mapping, the two
sheets sort the services with keys that coincide, so the Coverage matrix rows
list the services in exactly the Services sheet row order; in particular the
service-name column of the matrix equals the Services sheet name column. -/
theorem coverage_matrix_order_matches_services (d : SourceData)
    (hc : ∀ s ∈ d.services, s.serviceName = "" ∧ s.ServiceName = "")
    (hm : d.servicesByRegion ≠ []) :
    sortByKey sortKeyCoverage d.services = sortByKey sortKeyServices d.services
    ∧ (createServiceCoverageSheet d).serviceColumn
        = (createServicesSheet d).map ServicesRow.serviceName := by
  have hkeys : sortByKey sortKeyCoverage d.services = sortByKey sortKeyServices d.services :=
    sortByKey_congr fun s hs => by
      rw [sortKeyCoverage_canonical (hc s hs), sortKeyServices_canonical (hc s hs)]
  refine ⟨hkeys, ?_⟩
  have hne : ¬ d.servicesByRegion.isEmpty = true := by
    simpa [List.isEmpty_iff] using hm
  rw [createServiceCoverageSheet, if_neg hne]
  simp only [CoverageSheet.serviceColumn, createServicesSheet, List.map_map, hkeys]
  rfl

/-- C4 witness: a concrete canonical model with a non-empty coverage mapping
on which the theorem applies. -/
theorem coverage_matrix_order_matches_services_witness :
    ((∀ s ∈ (SourceData.mk [{ code := "r1" }]
          [{ code := "b", name := "Beta" }, { code := "a", name := "alpha" }]
          [("r1", ["a"])]).services, s.serviceName = "" ∧ s.ServiceName = "")
      ∧ (SourceData.mk [{ code := "r1" }]
          [{ code := "b", name := "Beta" }, { code := "a", name := "alpha" }]
          [("r1", ["a"])]).servicesByRegion ≠ [])
    ∧ (sortByKey sortKeyCoverage (SourceData.mk [{ code := "r1" }]
          [{ code := "b", name := "Beta" }, { code := "a", name := "alpha" }]
          [("r1", ["a"])]).services
        = sortByKey sortKeyServices (SourceData.mk [{ code := "r1" }]
          [{ code := "b", name := "Beta" }, { code := "a", name := "alpha" }]
          [("r1", ["a"])]).services
      ∧ (createServiceCoverageSheet (SourceData.mk [{ code := "r1" }]
          [{ code := "b", name := "Beta" }, { code := "a", name := "alpha" }]
          [("r1", ["a"])])).serviceColumn
        = (createServicesSheet (SourceData.mk [{ code := "r1" }]
          [{ code := "b", name := "Beta" }, { code := "a", name := "alpha" }]
          [("r1", ["a"])])).map ServicesRow.serviceName) :=
  ⟨⟨by decide, by decide⟩,
    coverage_matrix_order_matches_services _ (by decide) (by decide)⟩

/-! ## Claim C7: which absent containers abort the run -/

/-- A concrete parsed source document whose regions and services containers
are both present but whose metadata container is absent. -/
def noMetadataSource : RawSource :=
  { metadata := none
    regions := some (.direct [{ code := "us-east-1" }])
    services := some (.direct ["s3"])
    servicesByRegion := some (.direct [("us-east-1", .arr ["s3"])]) }

/-- C7 counterexample: the run also aborts when only the metadata container
is absent, although the regions and services containers are both present, so
the run does not abort only on absent regions or services. -/
theorem missing_metadata_aborts_cex :
    noMetadataSource.regions.isSome = true
    ∧ noMetadataSource.services.isSome = true
    ∧ handlerNormalize noMetadataSource []
        = .error "Invalid data structure: missing required fields (metadata, regions, or services)" :=
  ⟨rfl, rfl, rfl⟩

/-- C7 amended: the run aborts with the fatal validation error exactly when
the metadata, regions or services container is absent from the parsed source
document; when all three are present, an absent coverage mapping does not
abort the run and the Coverage matrix sheet downgrades to the centered
placeholder. -/
theorem handler_aborts_iff_missing_container :
    ∀ (d : RawSource) (names : List (String × String)),
      ((∃ msg, handlerNormalize d names = .error msg)
        ↔ (d.metadata = none ∨ d.regions = none ∨ d.services = none))
      ∧ (d.metadata ≠ none → d.regions ≠ none → d.services ≠ none →
          d.servicesByRegion = none →
          ∃ out, handlerNormalize d names = .ok out
            ∧ createServiceCoverageSheet out = .placeholder) := by
  intro d names
  constructor
  · constructor
    · intro ⟨msg, hmsg⟩
      by_contra hall
      push_neg at hall
      obtain ⟨h1, h2, h3⟩ := hall
      simp [handlerNormalize, Option.isNone_iff_eq_none, h1, h2, h3] at hmsg
    · intro h
      refine ⟨"Invalid data structure: missing required fields (metadata, regions, or services)", ?_⟩
      rw [handlerNormalize, if_pos]
      rcases h with h | h | h <;> simp [h]
  · intro h1 h2 h3 h4
    have hcond : (d.metadata.isNone || d.regions.isNone || d.services.isNone) = false := by
      simp [Option.isNone_iff_eq_none, Option.isSome_iff_ne_none, h1, h2, h3]
    rw [handlerNormalize, if_neg (by simp [hcond])]
    refine ⟨_, rfl, ?_⟩
    simp [createServiceCoverageSheet, h4, rawCoverageEntries, normalizeServicesByRegion]

/-- A concrete parsed source document with all three mandatory containers
present and no coverage mapping. -/
def fullSourceNoCoverage : RawSource :=
  { metadata := some {}
    regions := some (.direct [{ code := "r1" }])
    services := some (.direct ["s3"])
    servicesByRegion := none }

/-- C7 witness: the amended theorem applied at a concrete input with all
mandatory containers present and the coverage mapping absent. -/
theorem handler_aborts_iff_missing_container_witness :
    (fullSourceNoCoverage.metadata ≠ none
      ∧ fullSourceNoCoverage.regions ≠ none
      ∧ fullSourceNoCoverage.services ≠ none
      ∧ fullSourceNoCoverage.servicesByRegion = none)
    ∧ (∃ out, handlerNormalize fullSourceNoCoverage [] = .ok out
        ∧ createServiceCoverageSheet out = .placeholder) :=
  ⟨⟨by decide, by decide, by decide, rfl⟩,
    (handler_aborts_iff_missing_container fullSourceNoCoverage []).2
      (by decide) (by decide) (by decide) rfl⟩

/-! ## Claim C9: distribution-mirror failure and the notification kind -/

/-- C9 counterexample: a concrete run in which the distribution mirror copy
fails and every other stage succeeds.  The failure is recorded on the run
result and the run still returns 200, but the handler dispatches a success
notification, not a warning: `archiveManagementWarning` is set only by a
retention failure, so the claimed warning notification is refuted. -/
theorem mirror_failure_sends_success_cex :
    (handlerFinish (distributeReports true (.error ("Access Denied", "AccessDenied")))
        (.ok ⟨7, 0⟩)).statusCode = 200
    ∧ (handlerFinish (distributeReports true (.error ("Access Denied", "AccessDenied")))
        (.ok ⟨7, 0⟩)).distributionResult.distributed = false
    ∧ (handlerFinish (distributeReports true (.error ("Access Denied", "AccessDenied")))
        (.ok ⟨7, 0⟩)).distributionResult.error = some "Access Denied"
    ∧ (handlerFinish (distributeReports true (.error ("Access Denied", "AccessDenied")))
        (.ok ⟨7, 0⟩)).kindSent = NotificationKind.success
    ∧ NotificationKind.success ≠ NotificationKind.warning := by
  exact ⟨rfl, rfl, rfl, rfl, by decide⟩

/-- C9 amended: when the distribution mirror copy fails and all other stages
succeed, the failure is recorded as a non-fatal field on the run result and
the run is not aborted (status 200), but the run dispatches a success
notification; the warning notification is dispatched exactly when the
retention sweep fails. -/
theorem mirror_failure_nonfatal_success_notification :
    ∀ (e et : String) (res : RetentionResult) (dist : DistributionResult) (msg : String),
      (handlerFinish (distributeReports true (.error (e, et))) (.ok res)).statusCode = 200
      ∧ (handlerFinish (distributeReports true (.error (e, et))) (.ok res)).distributionResult
          = { distributed := false, error := some e, errorType := some et }
      ∧ (handlerFinish (distributeReports true (.error (e, et))) (.ok res)).kindSent
          = NotificationKind.success
      ∧ (handlerFinish dist (.error msg)).kindSent = NotificationKind.warning := by
  intro e et res dist msg
  exact ⟨rfl, rfl, rfl, rfl⟩

end AwsReporter
